import Mathlib

/-
Verification of the Invisible Population Detector aggregation-and-scoring
pipeline (Desktop/ipd/app.py) as a shallow embedding.  Numeric cells are
modelled exactly: machine floats of the pandas pipeline become a small
inductive type F with NaN, the two infinities and finite rationals, and
the integer count columns become Int.  Grouping (pandas groupby) is
modelled as the list of distinct keys paired with the sum of the grouped
column over each key's rows.
-/

namespace IPD

/-- A calendar date as produced by a successful day-first parse. -/
structure Date where
  year : Nat
  month : Nat
  day : Nat
deriving DecidableEq

/-- A cell of a pandas object column: either a missing value (NA) or a string. -/
inductive Cell where
  | na : Cell
  | str : String → Cell
deriving DecidableEq

/-- Two-digit zero padding used when rendering a month number. -/
def pad2 (n : Nat) : String := if n < 10 then "0" ++ toString n else toString n

/-- String rendering of a date truncated to its year-month period, as
Series.dt.to_period("M").astype(str) produces it: YYYY-MM for a valid date
and the literal string NaT for a null date (astype(str) renders NaT as the
three-character string, not as a missing value). -/
def periodMStr : Option Date → String
  | none => "NaT"
  | some d => toString d.year ++ "-" ++ pad2 d.month

/-- The object-column cell stored for the derived month field; always a
string cell, never NA, because astype(str) stringifies NaT as well. -/
def monthColCell (d : Option Date) : Cell := Cell.str (periodMStr d)

/-- A float cell of the pipeline: NaN, an infinity, or a finite value
(modelled exactly as a rational). -/
inductive F where
  | nan : F
  | inf : F
  | ninf : F
  | fin : ℚ → F
deriving DecidableEq

/-- numpy division of two finite floats: a / 0.0 is NaN when a = 0 and a
signed infinity otherwise. -/
def fdivQ (a bq : ℚ) : F :=
  if bq = 0 then (if a = 0 then F.nan else if 0 < a then F.inf else F.ninf)
  else F.fin (a / bq)

/-- Division of a finite float by a float cell. -/
def fdivQF (a : ℚ) : F → F
  | F.nan => F.nan
  | F.inf => F.fin 0
  | F.ninf => F.fin 0
  | F.fin bq => fdivQ a bq

/-- 1 - x on float cells. -/
def oneSub : F → F
  | F.nan => F.nan
  | F.inf => F.ninf
  | F.ninf => F.inf
  | F.fin q => F.fin (1 - q)

/-- Series.clip(lower=lo, upper=hi): NaN stays NaN, the infinities clip to
the corresponding bound, finite values clamp into the interval. -/
def fclip (lo hi : ℚ) : F → F
  | F.nan => F.nan
  | F.inf => F.fin hi
  | F.ninf => F.fin lo
  | F.fin q => F.fin (max lo (min hi q))

/-- fillna(0) on a float cell: NaN becomes 0, everything else is unchanged. -/
def fillna0 : F → F
  | F.nan => F.fin 0
  | F.inf => F.inf
  | F.ninf => F.ninf
  | F.fin q => F.fin q

/-- x > c as pandas evaluates it on a float cell: False on NaN. -/
def fgt (x : F) (c : ℚ) : Bool :=
  match x with
  | F.nan => false
  | F.inf => true
  | F.ninf => false
  | F.fin q => decide (c < q)

/-- safe_div(a, b) = np.where(b == 0, np.nan, a / b) at one cell. -/
def safe_div (a bq : ℚ) : F := if bq = 0 then F.nan else F.fin (a / bq)

/-- The VGS cell is a finite value inside the clamp interval [-1, 5]. -/
def vgsInRange (v : F) : Bool :=
  match v with
  | F.fin q => decide (-1 ≤ q) && decide (q ≤ 5)
  | _ => false

/-- A normalized row of one of the three activity tables: the parsed date,
string state and district, the derived month string, and the per-row total
of the kind's numeric columns. -/
structure NRow where
  date : Option Date
  state : String
  district : String
  month : String
  total : ℤ
deriving DecidableEq

/-- apply_filters: keep the rows matching the month selection and then the
rows matching the state selection; the sentinel "All" disables a filter.
The input list itself is untouched (the code filters a copy). -/
def apply_filters (monthSel stateSel : String) (df : List NRow) : List NRow :=
  let out := df
  let out := if monthSel = "All" then out else out.filter (fun r => r.month == monthSel)
  let out := if stateSel = "All" then out else out.filter (fun r => r.state == stateSel)
  out

/-- One district aggregate row: a distinct (state, district) key with the
sum of the grouped total column over that group. -/
structure DRow where
  state : String
  district : String
  observed : ℤ
deriving DecidableEq

/-- The distinct (state, district) keys of a table, as groupby partitions it. -/
def pairKeys (t : List NRow) : List (String × String) :=
  (t.map fun r => (r.state, r.district)).dedup

/-- Sum of the total column over one (state, district) group. -/
def gsum (t : List NRow) (k : String × String) : ℤ :=
  ((t.filter fun r => r.state == k.1 && r.district == k.2).map fun r => r.total).sum

/-- One aggregated district row. -/
def mkD (t : List NRow) (k : String × String) : DRow := ⟨k.1, k.2, gsum t k⟩

/-- groupby(["state", "district"]).agg(observed=("total", "sum")). -/
def districtAgg (t : List NRow) : List DRow := (pairKeys t).map (mkD t)

/-- One state aggregate row of state_stats. -/
structure SRow where
  state : String
  stateTotal : ℤ
  numDistricts : Nat
deriving DecidableEq

/-- The distinct states of the district aggregate table. -/
def stateKeys (d : List DRow) : List String := (d.map fun r => r.state).dedup

/-- One state row: the summed observed enrolments and the nunique count of
the district column over that state's group of district aggregates. -/
def mkStat (d : List DRow) (s : String) : SRow :=
  ⟨s, ((d.filter fun x => x.state == s).map fun x => x.observed).sum,
      (((d.filter fun x => x.state == s).map fun x => x.district).dedup).length⟩

/-- dist.groupby("state").agg(state_total=("observed_enrolments", "sum"),
num_districts=("district", "nunique")). -/
def state_stats (d : List DRow) : List SRow := (stateKeys d).map (mkStat d)

/-- The three risk labels of pd.cut. -/
inductive Tier where
  | Low : Tier
  | Medium : Tier
  | High : Tier
deriving DecidableEq

/-- pd.cut(v, bins=[-10, 0.10, 0.20, 10], labels=["Low", "Medium", "High"]):
right-closed bins; NaN, the infinities and values outside every bin get no
label. -/
def pdCut (v : F) : Option Tier :=
  match v with
  | F.fin q =>
      if -10 < q ∧ q ≤ 1/10 then some Tier.Low
      else if 1/10 < q ∧ q ≤ 1/5 then some Tier.Medium
      else if 1/5 < q ∧ q ≤ 10 then some Tier.High
      else none
  | _ => none

/-- The risk brackets as the specification words them: a score of at most
0.10 is Low, above 0.10 and at most 0.20 is Medium, above 0.20 is High; no
label on a non-finite score. -/
def riskSpec (v : F) : Option Tier :=
  match v with
  | F.fin q =>
      some (if q ≤ 1/10 then Tier.Low else if q ≤ 1/5 then Tier.Medium else Tier.High)
  | _ => none

/-- A fully scored district row of the hotspot table. -/
structure Scored where
  state : String
  district : String
  observed : ℤ
  stateTotal : ℤ
  numDistricts : Nat
  expected : F
  vgs : F
  demo : ℤ
  bio : ℤ
  mpi : F
  bsi : F
  risk : Option Tier
deriving DecidableEq

/-- Left-merge lookup of a grouped table at a (state, district) key followed
by fillna(0): the group sum when the key is present, otherwise 0. -/
def mergeVal (dd : List DRow) (s di : String) : ℤ :=
  ((dd.find? (fun x => x.state == s && x.district == di)).map (fun x => x.observed)).getD 0

/-- Scores one aggregated district row in the source order: merge the state
stats, compute expected enrolments and the clamped VGS, left-merge the demo
and bio aggregates, apply the frame-wide fillna(0) (which also replaces a
NaN VGS or expected value by 0), then MPI, BSI and the risk tier. -/
def scoreOne (ss : List SRow) (dd db : List DRow) (r0 : DRow) : Scored :=
  let st := (ss.find? (fun x => x.state == r0.state)).getD ⟨r0.state, 0, 0⟩
  let expected0 : F := fdivQ (st.stateTotal : ℚ) (st.numDistricts : ℚ)
  let vgs0 : F := fclip (-1) 5 (oneSub (fdivQF (r0.observed : ℚ) expected0))
  let demo : ℤ := mergeVal dd r0.state r0.district
  let bio : ℤ := mergeVal db r0.state r0.district
  let vgs : F := fillna0 vgs0
  let mpi : F := safe_div (demo : ℚ) (r0.observed : ℚ)
  let bsi : F := safe_div (bio : ℚ) (r0.observed : ℚ)
  ⟨r0.state, r0.district, r0.observed, st.stateTotal, st.numDistricts,
   fillna0 expected0, vgs, demo, bio, mpi, bsi, pdCut vgs⟩

/-- The hotspot scoring pipeline on the three (already filtered) tables. -/
def scoreTable (e d b : List NRow) : List Scored :=
  let dist := districtAgg e
  dist.map (scoreOne (state_stats dist) (districtAgg d) (districtAgg b))

/-- recommend(row): append an action per satisfied predicate in the fixed
order VGS, MPI, BSI; fall back to the single monitor action when no
predicate holds. -/
def recommendList (r : Scored) : List String :=
  let actions : List String := []
  let actions := if fgt r.vgs (1/5) then actions ++ ["Mobile enrolment + outreach camps"] else actions
  let actions := if fgt r.mpi (1/2) then actions ++ ["Assisted demographic update drive (migration/churn)"] else actions
  let actions := if fgt r.bsi (1/2) then actions ++ ["Biometric recapture support + assisted verification"] else actions
  if actions = [] then ["Monitor (low risk)"] else actions

/-- The joined string the code returns. -/
def recommend (r : Scored) : String := String.intercalate " | " (recommendList r)

/-- Insert into a list sorted by a Bool comparison. -/
def insertBy {α : Type} (le : α → α → Bool) (x : α) : List α → List α
  | [] => [x]
  | y :: ys => if le x y then x :: y :: ys else y :: insertBy le x ys

/-- Insertion sort by a Bool comparison. -/
def sortBy {α : Type} (le : α → α → Bool) : List α → List α
  | [] => []
  | x :: xs => insertBy le x (sortBy le xs)

/-- Descending order on the VGS column with NaN sorted last, as
sort_values("VGS_proxy", ascending=False) orders rows. -/
def vgsDescLE (a bv : F) : Bool :=
  match a, bv with
  | F.nan, F.nan => true
  | F.nan, _ => false
  | _, F.nan => true
  | F.inf, _ => true
  | _, F.inf => false
  | F.ninf, F.ninf => true
  | F.ninf, F.fin _ => false
  | F.fin _, F.ninf => true
  | F.fin x, F.fin y => decide (y ≤ x)

/-- Descending sort of the scored table by VGS. -/
def sortByVgs (l : List Scored) : List Scored :=
  sortBy (fun a bv => vgsDescLE a.vgs bv.vgs) l

/-- Spike detection outcome: the peak date and value, the no-data sentinel
the code renders as N/A, or the NameError the script actually raises. -/
inductive SpikeResult where
  | noData : SpikeResult
  | peak : Date → ℤ → SpikeResult
  | nameError : SpikeResult
deriving DecidableEq

/-- groupby("date") totals: one (date, sum) entry per distinct non-null
date; rows whose date is null are excluded from the date-keyed groups. -/
def dateGroups (t : List NRow) : List (Date × ℤ) :=
  ((t.filterMap fun r => r.date).dedup).map
    (fun dt => (dt, ((t.filter fun r => r.date == some dt).map fun r => r.total).sum))

/-- Lines 221-229 of the source: group the enrolment table by date, sort
descending by the summed total, take the top row, or report the no-data
sentinel when the grouped frame is empty. -/
def spike_date (t : List NRow) : SpikeResult :=
  match sortBy (fun x y => decide (y.2 ≤ x.2)) (dateGroups t) with
  | [] => SpikeResult.noData
  | (dt, v) :: _ => SpikeResult.peak dt v

/-- The module-level bindings holding the three loaded tables; a deleted
binding is none. -/
structure GlobalsState where
  enrol : Option (List NRow)
  demo : Option (List NRow)
  bio : Option (List NRow)

/-- Line 210 of the source, del enrol, demo, bio: the three names become
unbound. -/
def delTables (_ : GlobalsState) : GlobalsState := ⟨none, none, none⟩

/-- Line 221 evaluates enrol.groupby("date"): a NameError when the binding
has been deleted, the spike computation otherwise. -/
def spikeStep (g : GlobalsState) : SpikeResult :=
  match g.enrol with
  | none => SpikeResult.nameError
  | some t => spike_date t

/-- Truncation toward zero, as astype(int) casts a float to an integer. -/
def ratTrunc (q : ℚ) : ℤ := if 0 ≤ q then ⌊q⌋ else ⌈q⌉

/-- pd.to_numeric(c, errors="coerce").fillna(0).astype(int) at one cell: a
failed parse (NaN) becomes 0, a parsed number is truncated to an integer. -/
def coerceNum : Option ℚ → ℤ
  | none => 0
  | some q => ratTrunc q

/-- Every successfully parsed value of the cell is non-negative. -/
def cellNonnegB (c : Option ℚ) : Bool :=
  match c with
  | none => true
  | some q => decide (0 ≤ q)

/-- A raw enrolment row before normalization: the day-first parsed date
(none when unparseable) and the three age-bucket cells as parse results
(none when the cell is malformed or missing). -/
structure RawEnrolRow where
  date : Option Date
  state : String
  district : String
  age_0_5 : Option ℚ
  age_5_17 : Option ℚ
  age_18_greater : Option ℚ
deriving DecidableEq

/-- A normalized enrolment row: the coerced age columns, their row total
and the derived month string. -/
structure EnrolRow where
  date : Option Date
  state : String
  district : String
  age_0_5 : ℤ
  age_5_17 : ℤ
  age_18_greater : ℤ
  total_enrolments : ℤ
  month : String
deriving DecidableEq

/-- Lines 55-66 of the loader applied to one row: coerce the three age
columns, sum them into total_enrolments and derive the month string. -/
def normalizeEnrolRow (r : RawEnrolRow) : EnrolRow :=
  let a0 := coerceNum r.age_0_5
  let a5 := coerceNum r.age_5_17
  let a18 := coerceNum r.age_18_greater
  ⟨r.date, r.state, r.district, a0, a5, a18, a0 + a5 + a18, periodMStr r.date⟩

/-- Sample enrolment table: one state with two districts, enrolments 100
and 0, as in the end-to-end example of the specification. -/
def sampleE : List NRow :=
  [⟨some ⟨2025, 3, 1⟩, "A", "D", "2025-03", 100⟩,
   ⟨some ⟨2025, 3, 2⟩, "A", "E", "2025-03", 0⟩]

/-- Sample demographic table: 10 updates for the zero-enrolment district. -/
def sampleD : List NRow :=
  [⟨some ⟨2025, 3, 1⟩, "A", "E", "2025-03", 10⟩]

/-- Sample biometric table: empty. -/
def sampleB : List NRow := []

/-- The scored row of district D: observed 100 against expected 50. -/
def sampleRow1 : Scored :=
  ⟨"A", "D", 100, 100, 2, F.fin 50, F.fin (-1), 0, 0, F.fin 0, F.fin 0, some Tier.Low⟩

/-- The scored row of district E: observed 0 against expected 50, with 10
demographic updates, hence an undefined MPI. -/
def sampleRow2 : Scored :=
  ⟨"A", "E", 0, 100, 2, F.fin 50, F.fin 1, 10, 0, F.nan, F.nan, some Tier.High⟩

/-- A scored row with VGS 0.25, MPI 0.6 and BSI 0.6, the recommendation
example of the specification. -/
def sampleHot : Scored :=
  ⟨"A", "D", 10, 100, 2, F.fin 50, F.fin (1/4), 6, 6, F.fin (3/5), F.fin (3/5), some Tier.High⟩

/-- A raw enrolment row with one malformed cell and one fractional cell. -/
def sampleRaw : RawEnrolRow :=
  ⟨some ⟨2025, 3, 15⟩, "A", "D", some 3, none, some (7/2)⟩

theorem find?_map_of_mem {α β : Type} (f : α → β) (p : β → Bool) (a : α)
    (hp : ∀ x : α, p (f x) = true ↔ x = a) :
    ∀ l : List α, a ∈ l → (l.map f).find? p = some (f a) := by
  intro l
  induction l with
  | nil => intro h; cases h
  | cons x xs ih =>
      intro h
      by_cases hxa : x = a
      · subst hxa
        rw [List.map_cons]
        exact List.find?_cons_of_pos _ ((hp x).mpr rfl)
      · have hpx : ¬ p (f x) = true := fun hc => hxa ((hp x).mp hc)
        have hmem : a ∈ xs := by
          rcases List.mem_cons.mp h with h1 | h1
          · exact absurd h1.symm hxa
          · exact h1
        rw [List.map_cons, List.find?_cons_of_neg _ hpx]
        exact ih hmem

theorem find?_map_of_not_mem {α β : Type} (f : α → β) (p : β → Bool) (a : α)
    (hp : ∀ x : α, p (f x) = true ↔ x = a) (l : List α) (ha : a ∉ l) :
    (l.map f).find? p = none := by
  rw [List.find?_eq_none]
  intro y hy hpy
  rcases List.mem_map.mp hy with ⟨x, hx, rfl⟩
  exact ha (((hp x).mp hpy) ▸ hx)

theorem sum_map_add {α : Type} (f g : α → ℤ) (l : List α) :
    (l.map fun x => f x + g x).sum = (l.map f).sum + (l.map g).sum := by
  induction l with
  | nil => simp
  | cons x xs ih =>
      simp only [List.map_cons, List.sum_cons, ih]
      ring

theorem sum_map_zero {α : Type} (f : α → ℤ) :
    ∀ l : List α, (∀ x ∈ l, f x = 0) → (l.map f).sum = 0 := by
  intro l
  induction l with
  | nil => intro _; simp
  | cons x xs ih =>
      intro h
      rw [List.map_cons, List.sum_cons, h x (List.mem_cons_self x xs),
        ih (fun y hy => h y (List.mem_cons_of_mem x hy))]
      simp

theorem sum_ite_single {κ : Type} [DecidableEq κ] (k0 : κ) (v : ℤ) :
    ∀ ks : List κ, ks.Nodup → k0 ∈ ks →
      (ks.map fun k => if k0 = k then v else 0).sum = v := by
  intro ks
  induction ks with
  | nil => intro _ hm; cases hm
  | cons k ks ih =>
      intro hnd hm
      have hk : k ∉ ks := (List.nodup_cons.mp hnd).1
      have hnd2 : ks.Nodup := (List.nodup_cons.mp hnd).2
      rw [List.map_cons, List.sum_cons]
      by_cases hkk : k0 = k
      · subst hkk
        rw [if_pos rfl,
          sum_map_zero _ ks (fun y hy => if_neg (fun hc => hk (by rw [hc]; exact hy)))]
        simp
      · have hm2 : k0 ∈ ks := by
          rcases List.mem_cons.mp hm with h | h
          · exact absurd h hkk
          · exact h
        rw [if_neg hkk, ih hnd2 hm2]
        simp

theorem sum_groups {α κ : Type} [DecidableEq κ] (key : α → κ) (val : α → ℤ) :
    ∀ (l : List α) (ks : List κ), ks.Nodup → (∀ x ∈ l, key x ∈ ks) →
      (ks.map fun k => ((l.filter fun x => key x == k).map val).sum).sum
        = (l.map val).sum := by
  intro l
  induction l with
  | nil =>
      intro ks _ _
      rw [List.map_nil, List.sum_nil]
      exact sum_map_zero _ ks (fun k _ => by rw [List.filter_nil, List.map_nil, List.sum_nil])
  | cons x xs ih =>
      intro ks hnd hcov
      have hx : key x ∈ ks := hcov x (List.mem_cons_self x xs)
      have hcov2 : ∀ y ∈ xs, key y ∈ ks := fun y hy => hcov y (List.mem_cons_of_mem x hy)
      have hstep : ∀ k ∈ ks,
          ((List.filter (fun z => key z == k) (x :: xs)).map val).sum
            = (if key x = k then val x else 0) + ((xs.filter fun z => key z == k).map val).sum := by
        intro k _
        by_cases hk : key x = k
        · rw [List.filter_cons]
          simp [hk]
        · rw [List.filter_cons]
          simp [hk]
      rw [List.map_congr_left hstep, sum_map_add,
        sum_ite_single (key x) (val x) ks hnd hx, ih ks hnd hcov2,
        List.map_cons, List.sum_cons]

theorem length_insertBy {α : Type} (le : α → α → Bool) (x : α) :
    ∀ l : List α, (insertBy le x l).length = l.length + 1 := by
  intro l
  induction l with
  | nil => rfl
  | cons y ys ih =>
      by_cases h : le x y
      · simp [insertBy, h]
      · simp [insertBy, h, ih]

theorem length_sortBy {α : Type} (le : α → α → Bool) :
    ∀ l : List α, (sortBy le l).length = l.length := by
  intro l
  induction l with
  | nil => rfl
  | cons x xs ih =>
      rw [sortBy, length_insertBy, ih]
      rfl

theorem vgs_shape (stot : ℤ) (numD : Nat) (obs : ℤ) (h : 1 ≤ numD) :
    vgsInRange (fillna0 (fclip (-1) 5 (oneSub (fdivQF (obs : ℚ)
        (fdivQ (stot : ℚ) (numD : ℚ)))))) = true
    ∧ (stot ≠ 0 →
        fillna0 (fclip (-1) 5 (oneSub (fdivQF (obs : ℚ) (fdivQ (stot : ℚ) (numD : ℚ)))))
          = F.fin (max (-1) (min 5 (1 - (obs : ℚ) / ((stot : ℚ) / (numD : ℚ)))))) := by
  have hnq : (numD : ℚ) ≠ 0 := Nat.cast_ne_zero.mpr (by omega)
  by_cases hst : stot = 0
  · subst hst
    refine ⟨?_, fun hc => absurd rfl hc⟩
    have hdiv : fdivQ ((0 : ℤ) : ℚ) (numD : ℚ) = F.fin 0 := by
      rw [fdivQ, if_neg hnq]
      norm_num
    rw [hdiv]
    rcases lt_trichotomy ((obs : ℚ)) 0 with h1 | h1 | h1
    · have h2 : fdivQF (obs : ℚ) (F.fin 0) = F.ninf := by
        simp only [fdivQF]
        rw [fdivQ, if_pos rfl, if_neg h1.ne, if_neg (not_lt.mpr h1.le)]
      rw [h2]
      decide
    · have h2 : fdivQF (obs : ℚ) (F.fin 0) = F.nan := by
        simp only [fdivQF]
        rw [fdivQ, if_pos rfl, if_pos h1]
      rw [h2]
      decide
    · have h2 : fdivQF (obs : ℚ) (F.fin 0) = F.inf := by
        simp only [fdivQF]
        rw [fdivQ, if_pos rfl, if_neg (ne_of_gt h1), if_pos h1]
      rw [h2]
      decide
  · have hq0 : (stot : ℚ) / (numD : ℚ) ≠ 0 := div_ne_zero (Int.cast_ne_zero.mpr hst) hnq
    have hdiv : fdivQ (stot : ℚ) (numD : ℚ) = F.fin ((stot : ℚ) / (numD : ℚ)) := by
      rw [fdivQ, if_neg hnq]
    have hdiv2 : fdivQF (obs : ℚ) (F.fin ((stot : ℚ) / (numD : ℚ)))
        = F.fin ((obs : ℚ) / ((stot : ℚ) / (numD : ℚ))) := by
      simp only [fdivQF]
      rw [fdivQ, if_neg hq0]
    rw [hdiv, hdiv2]
    constructor
    · simp only [oneSub, fclip, fillna0, vgsInRange, Bool.and_eq_true, decide_eq_true_eq]
      exact ⟨le_max_left _ _, max_le (by norm_num) (min_le_left _ _)⟩
    · intro _
      simp only [oneSub, fclip, fillna0]

theorem mem_scoreTable (e d b : List NRow) (r : Scored) (hr : r ∈ scoreTable e d b) :
    ∃ k ∈ pairKeys e,
      r = scoreOne (state_stats (districtAgg e)) (districtAgg d) (districtAgg b) (mkD e k) := by
  simp only [scoreTable] at hr
  rcases List.mem_map.mp hr with ⟨r0, hr0, rfl⟩
  rw [districtAgg] at hr0
  rcases List.mem_map.mp hr0 with ⟨k, hk, rfl⟩
  exact ⟨k, hk, rfl⟩

theorem mkD_mem (e : List NRow) (k : String × String) (hk : k ∈ pairKeys e) :
    mkD e k ∈ districtAgg e := by
  rw [districtAgg]
  exact List.mem_map_of_mem _ hk

theorem state_mem_stateKeys (e : List NRow) (k : String × String) (hk : k ∈ pairKeys e) :
    k.1 ∈ stateKeys (districtAgg e) := by
  rw [stateKeys, List.mem_dedup]
  exact List.mem_map_of_mem (fun r => r.state) (mkD_mem e k hk)

theorem stat_find (d : List DRow) (s : String) (hs : s ∈ stateKeys d) :
    (state_stats d).find? (fun x => x.state == s) = some (mkStat d s) := by
  rw [state_stats]
  exact find?_map_of_mem (mkStat d) (fun x => x.state == s) s
    (fun k => by simp [mkStat]) (stateKeys d) hs

theorem mkStat_numD_pos (e : List NRow) (k : String × String) (hk : k ∈ pairKeys e) :
    1 ≤ (mkStat (districtAgg e) k.1).numDistricts := by
  have hmem : mkD e k ∈ (districtAgg e).filter (fun x => x.state == k.1) := by
    rw [List.mem_filter]
    exact ⟨mkD_mem e k hk, by simp [mkD]⟩
  have hm2 : k.2 ∈ (((districtAgg e).filter fun x => x.state == k.1).map
      fun x => x.district).dedup := by
    rw [List.mem_dedup]
    exact List.mem_map_of_mem (fun x => x.district) hmem
  exact List.length_pos.mpr (List.ne_nil_of_mem hm2)

theorem scoreOne_eq (ss : List SRow) (dd db : List DRow) (r0 : DRow) (st : SRow)
    (hfind : ss.find? (fun x => x.state == r0.state) = some st) :
    scoreOne ss dd db r0 =
      ⟨r0.state, r0.district, r0.observed, st.stateTotal, st.numDistricts,
       fillna0 (fdivQ (st.stateTotal : ℚ) (st.numDistricts : ℚ)),
       fillna0 (fclip (-1) 5 (oneSub (fdivQF (r0.observed : ℚ)
         (fdivQ (st.stateTotal : ℚ) (st.numDistricts : ℚ))))),
       mergeVal dd r0.state r0.district, mergeVal db r0.state r0.district,
       safe_div ((mergeVal dd r0.state r0.district : ℤ) : ℚ) ((r0.observed : ℤ) : ℚ),
       safe_div ((mergeVal db r0.state r0.district : ℤ) : ℚ) ((r0.observed : ℤ) : ℚ),
       pdCut (fillna0 (fclip (-1) 5 (oneSub (fdivQF (r0.observed : ℚ)
         (fdivQ (st.stateTotal : ℚ) (st.numDistricts : ℚ))))))⟩ := by
  simp only [scoreOne, hfind, Option.getD_some]

theorem mergeVal_agg (t : List NRow) (k1 k2 : String) :
    mergeVal (districtAgg t) k1 k2
      = ((t.filter fun r => r.state == k1 && r.district == k2).map fun r => r.total).sum := by
  by_cases hk : (k1, k2) ∈ pairKeys t
  · have hfind : (districtAgg t).find? (fun x => x.state == k1 && x.district == k2)
        = some (mkD t (k1, k2)) := by
      rw [districtAgg]
      exact find?_map_of_mem (mkD t) _ (k1, k2)
        (fun x => by cases x; simp [mkD]) (pairKeys t) hk
    rw [mergeVal, hfind]
    rfl
  · have hfind : (districtAgg t).find? (fun x => x.state == k1 && x.district == k2)
        = none := by
      rw [districtAgg]
      exact find?_map_of_not_mem (mkD t) _ (k1, k2)
        (fun x => by cases x; simp [mkD]) (pairKeys t) hk
    have hnil : (t.filter fun r => r.state == k1 && r.district == k2) = [] := by
      rw [List.filter_eq_nil_iff]
      intro r hr hpr
      have hp2 : r.state = k1 ∧ r.district = k2 := by simpa using hpr
      apply hk
      rw [pairKeys, List.mem_dedup]
      have hmm : (r.state, r.district) ∈ t.map fun x => (x.state, x.district) :=
        List.mem_map_of_mem _ hr
      rw [hp2.1, hp2.2] at hmm
      exact hmm
    rw [mergeVal, hfind, hnil]
    rfl

theorem filter_districtAgg (e : List NRow) (s : String) :
    (districtAgg e).filter (fun x => x.state == s)
      = ((pairKeys e).filter fun k => k.1 == s).map (mkD e) := by
  rw [districtAgg, List.filter_map]
  exact congrArg _ (List.filter_congr (fun k _ => rfl))

theorem mem_fst_filter_pairKeys (e : List NRow) (s : String) (k : String × String)
    (hk : k ∈ (pairKeys e).filter fun x => x.1 == s) : k.1 = s := by
  have := (List.mem_filter.mp hk).2
  simpa using this

theorem sndKeys_nodup (e : List NRow) (s : String) :
    ((((pairKeys e).filter fun k => k.1 == s).map fun k => k.2)).Nodup := by
  refine List.Nodup.map_on ?_ ((List.nodup_dedup _).filter _)
  intro x hx y hy hxy
  have hx1 := mem_fst_filter_pairKeys e s x hx
  have hy1 := mem_fst_filter_pairKeys e s y hy
  cases x
  cases y
  simp only [Prod.mk.injEq]
  simp only at hx1 hy1 hxy
  exact ⟨hx1.trans hy1.symm, hxy⟩

theorem mem_sndKeys (e : List NRow) (s : String) (r : NRow)
    (hr : r ∈ e.filter fun x => x.state == s) :
    r.district ∈ ((pairKeys e).filter fun k => k.1 == s).map fun k => k.2 := by
  have hr2 := List.mem_filter.mp hr
  have hst : r.state = s := by simpa using hr2.2
  have hkmem : (r.state, r.district) ∈ pairKeys e := by
    rw [pairKeys, List.mem_dedup]
    exact List.mem_map_of_mem _ hr2.1
  have hkf : (r.state, r.district) ∈ (pairKeys e).filter fun k => k.1 == s := by
    rw [List.mem_filter]
    exact ⟨hkmem, by simp [hst]⟩
  exact List.mem_map_of_mem (fun k => k.2) hkf

theorem sndKeys_sub (e : List NRow) (s : String) (a : String)
    (ha : a ∈ ((pairKeys e).filter fun k => k.1 == s).map fun k => k.2) :
    a ∈ (e.filter fun r => r.state == s).map fun r => r.district := by
  rcases List.mem_map.mp ha with ⟨k, hkf, rfl⟩
  have hk1 : k.1 = s := mem_fst_filter_pairKeys e s k hkf
  have hkmem : k ∈ pairKeys e := (List.mem_filter.mp hkf).1
  rw [pairKeys, List.mem_dedup] at hkmem
  rcases List.mem_map.mp hkmem with ⟨r, hre, hrk⟩
  have hs1 : r.state = s := by
    rw [← hk1, ← hrk]
  refine List.mem_map.mpr ⟨r, ?_, ?_⟩
  · rw [List.mem_filter]
    exact ⟨hre, by simp [hs1]⟩
  · rw [← hrk]

theorem stateTotal_raw (e : List NRow) (s : String) :
    (mkStat (districtAgg e) s).stateTotal
      = ((e.filter fun r => r.state == s).map fun r => r.total).sum := by
  show (((districtAgg e).filter fun x => x.state == s).map fun x => x.observed).sum = _
  rw [filter_districtAgg, List.map_map]
  have hstep : ∀ k ∈ (pairKeys e).filter fun x => x.1 == s,
      ((fun x => x.observed) ∘ mkD e) k
        = (((e.filter fun r => r.state == s).filter fun r => r.district == k.2).map
            fun r => r.total).sum := by
    intro k hkf
    show gsum e k = _
    rw [gsum, List.filter_filter, mem_fst_filter_pairKeys e s k hkf]
    exact congrArg _ (congrArg _ (List.filter_congr (fun r _ => Bool.and_comm _ _)))
  rw [List.map_congr_left hstep]
  have hmm : ((pairKeys e).filter fun x => x.1 == s).map
        (fun k => (((e.filter fun r => r.state == s).filter fun r => r.district == k.2).map
          fun r => r.total).sum)
      = (((pairKeys e).filter fun x => x.1 == s).map fun k => k.2).map
        (fun k2 => (((e.filter fun r => r.state == s).filter fun r => r.district == k2).map
          fun r => r.total).sum) := by
    rw [List.map_map]
    rfl
  rw [hmm]
  exact sum_groups (fun r => r.district) (fun r => r.total) _ _
    (sndKeys_nodup e s) (fun r hr => mem_sndKeys e s r hr)

theorem numD_raw (e : List NRow) (s : String) :
    (mkStat (districtAgg e) s).numDistricts
      = (((e.filter fun r => r.state == s).map fun r => r.district).dedup).length := by
  show ((((districtAgg e).filter fun x => x.state == s).map fun x => x.district).dedup).length = _
  rw [filter_districtAgg, List.map_map]
  have hid : ((pairKeys e).filter fun x => x.1 == s).map ((fun x => x.district) ∘ mkD e)
      = ((pairKeys e).filter fun x => x.1 == s).map fun k => k.2 :=
    List.map_congr_left (fun k _ => rfl)
  rw [hid, List.dedup_eq_self.mpr (sndKeys_nodup e s)]
  have hperm : List.Perm ((((pairKeys e).filter fun x => x.1 == s)).map fun k => k.2)
      (((e.filter fun r => r.state == s).map fun r => r.district).dedup) := by
    rw [List.perm_ext_iff_of_nodup (sndKeys_nodup e s) (List.nodup_dedup _)]
    intro a
    constructor
    · intro ha
      rw [List.mem_dedup]
      exact sndKeys_sub e s a ha
    · intro ha
      rw [List.mem_dedup] at ha
      rcases List.mem_map.mp ha with ⟨r, hrl, rfl⟩
      exact mem_sndKeys e s r hrl
  exact hperm.length_eq

theorem scoreOne_row1 :
    scoreOne [⟨"A", 100, 2⟩] [⟨"A", "E", 10⟩] [] ⟨"A", "D", 100⟩ = sampleRow1 := by
  have hm1 : mergeVal [⟨"A", "E", 10⟩] "A" "D" = 0 := by decide
  have hm2 : mergeVal ([] : List DRow) "A" "D" = 0 := by decide
  have hf : ([⟨"A", 100, 2⟩] : List SRow).find? (fun x => x.state == "A")
      = some ⟨"A", 100, 2⟩ := by decide
  simp only [scoreOne, hf, Option.getD_some, sampleRow1]
  norm_num [hm1, hm2, fdivQ, fdivQF, oneSub, fclip, fillna0, safe_div, pdCut]

theorem scoreOne_row2 :
    scoreOne [⟨"A", 100, 2⟩] [⟨"A", "E", 10⟩] [] ⟨"A", "E", 0⟩ = sampleRow2 := by
  have hm1 : mergeVal [⟨"A", "E", 10⟩] "A" "E" = 10 := by decide
  have hm2 : mergeVal ([] : List DRow) "A" "E" = 0 := by decide
  have hf : ([⟨"A", 100, 2⟩] : List SRow).find? (fun x => x.state == "A")
      = some ⟨"A", 100, 2⟩ := by decide
  simp only [scoreOne, hf, Option.getD_some, sampleRow2]
  norm_num [hm1, hm2, fdivQ, fdivQF, oneSub, fclip, fillna0, safe_div, pdCut]

theorem scoreTable_eval : scoreTable sampleE sampleD sampleB = [sampleRow1, sampleRow2] := by
  have h1 : districtAgg sampleE = [⟨"A", "D", 100⟩, ⟨"A", "E", 0⟩] := by decide
  have h2 : state_stats ([⟨"A", "D", 100⟩, ⟨"A", "E", 0⟩] : List DRow)
      = [⟨"A", 100, 2⟩] := by decide
  have h3 : districtAgg sampleD = [⟨"A", "E", 10⟩] := by decide
  have h4 : districtAgg sampleB = [] := by decide
  rw [scoreTable, h1, h2, h3, h4, List.map_cons, List.map_cons, List.map_nil,
    scoreOne_row1, scoreOne_row2]

theorem sampleRow1_mem : sampleRow1 ∈ scoreTable sampleE sampleD sampleB := by
  rw [scoreTable_eval]
  exact List.mem_cons_self _ _

theorem sampleRow2_mem : sampleRow2 ∈ scoreTable sampleE sampleD sampleB := by
  rw [scoreTable_eval]
  exact List.mem_cons_of_mem _ (List.mem_cons_self _ _)

theorem map_key_scoreOne (ss : List SRow) (dd db : List DRow) (e : List NRow) :
    ∀ ks : List (String × String),
      ks.map (fun k => ((scoreOne ss dd db (mkD e k)).state,
        (scoreOne ss dd db (mkD e k)).district)) = ks := by
  intro ks
  induction ks with
  | nil => rfl
  | cons k ks ih =>
      rw [List.map_cons, ih]
      rfl

theorem pdCut_eq_riskSpec (v : F) (hv : vgsInRange v = true) : pdCut v = riskSpec v := by
  cases v with
  | fin q =>
      simp only [vgsInRange, Bool.and_eq_true, decide_eq_true_eq] at hv
      obtain ⟨hlo, hhi⟩ := hv
      simp only [pdCut, riskSpec]
      by_cases ha : q ≤ 1/10
      · rw [if_pos ⟨by linarith, ha⟩, if_pos ha]
      · by_cases hb : q ≤ 1/5
        · rw [if_neg (fun hc => ha hc.2), if_pos ⟨lt_of_not_le ha, hb⟩, if_neg ha, if_pos hb]
        · rw [if_neg (fun hc => ha hc.2), if_neg (fun hc => hb hc.2),
            if_pos ⟨lt_of_not_le hb, by linarith⟩, if_neg ha, if_neg hb]
  | nan => simp [vgsInRange] at hv
  | inf => simp [vgsInRange] at hv
  | ninf => simp [vgsInRange] at hv

/-- C1: every district record the scoring engine produces carries a finite
VGS lying in the clamp interval [-1, 5] — including districts whose observed
enrolments are 0 — and whenever the state total is nonzero (so the quotient
observed / expected is defined) the VGS equals 1 - observed / expected
clamped to [-1, 5]. -/
theorem c1_vgs_clamp (e d b : List NRow) (r : Scored) (hr : r ∈ scoreTable e d b) :
    vgsInRange r.vgs = true
    ∧ (r.stateTotal ≠ 0 →
        r.vgs = F.fin (max (-1) (min 5 (1 - (r.observed : ℚ)
          / ((r.stateTotal : ℚ) / (r.numDistricts : ℚ)))))) := by
  rcases mem_scoreTable e d b r hr with ⟨k, hk, rfl⟩
  rw [scoreOne_eq _ _ _ _ _ (stat_find (districtAgg e) k.1 (state_mem_stateKeys e k hk))]
  have hsh := vgs_shape (mkStat (districtAgg e) k.1).stateTotal
    (mkStat (districtAgg e) k.1).numDistricts (gsum e k) (mkStat_numD_pos e k hk)
  exact ⟨hsh.1, hsh.2⟩

/-- C1 witness: the zero-enrolment district of the sample pipeline has VGS
1 - 0/50 = 1, inside the clamp interval. -/
theorem c1_witness :
    vgsInRange sampleRow2.vgs = true
    ∧ (sampleRow2.stateTotal ≠ 0 →
        sampleRow2.vgs = F.fin (max (-1) (min 5 (1 - (sampleRow2.observed : ℚ)
          / ((sampleRow2.stateTotal : ℚ) / (sampleRow2.numDistricts : ℚ)))))) :=
  c1_vgs_clamp sampleE sampleD sampleB sampleRow2 sampleRow2_mem

/-- C3: on every scored district the code's pd.cut risk tier agrees with the
left-closed brackets of the specification (at most 0.10 Low, above 0.10 and
at most 0.20 Medium, above 0.20 High), and the two boundary scores 0.10 and
0.20 classify as Low and Medium under both. -/
theorem c3_risk_brackets (e d b : List NRow) (r : Scored) (hr : r ∈ scoreTable e d b) :
    r.risk = riskSpec r.vgs
    ∧ riskSpec (F.fin (1/10)) = some Tier.Low
    ∧ riskSpec (F.fin (1/5)) = some Tier.Medium
    ∧ pdCut (F.fin (1/10)) = some Tier.Low
    ∧ pdCut (F.fin (1/5)) = some Tier.Medium := by
  refine ⟨?_, by simp only [riskSpec]; norm_num, by simp only [riskSpec]; norm_num,
    by simp only [pdCut]; norm_num, by simp only [pdCut]; norm_num⟩
  rcases mem_scoreTable e d b r hr with ⟨k, hk, rfl⟩
  rw [scoreOne_eq _ _ _ _ _ (stat_find (districtAgg e) k.1 (state_mem_stateKeys e k hk))]
  exact pdCut_eq_riskSpec _ (vgs_shape (mkStat (districtAgg e) k.1).stateTotal
    (mkStat (districtAgg e) k.1).numDistricts (gsum e k) (mkStat_numD_pos e k hk)).1

/-- C3 witness: the district with VGS clamped to -1 in the sample pipeline
classifies Low, and the boundary facts evaluate. -/
theorem c3_witness :
    sampleRow1.risk = riskSpec sampleRow1.vgs
    ∧ riskSpec (F.fin (1/10)) = some Tier.Low
    ∧ riskSpec (F.fin (1/5)) = some Tier.Medium
    ∧ pdCut (F.fin (1/10)) = some Tier.Low
    ∧ pdCut (F.fin (1/5)) = some Tier.Medium :=
  c3_risk_brackets sampleE sampleD sampleB sampleRow1 sampleRow1_mem

/-- C4: on every scored district with observed enrolments 0, MPI and BSI are
the explicit NaN value — neither a finite 0 nor infinity; with nonzero
observed enrolments they are the exact quotients; and the descending sort of
the scored table by VGS always returns a table of the same length (it cannot
fail on such a district). -/
theorem c4_undefined_ratios (e d b : List NRow) (r : Scored) (hr : r ∈ scoreTable e d b) :
    (r.observed = 0 → r.mpi = F.nan ∧ r.bsi = F.nan ∧ r.mpi ≠ F.fin 0 ∧ r.mpi ≠ F.inf)
    ∧ (r.observed ≠ 0 →
        r.mpi = F.fin ((r.demo : ℚ) / (r.observed : ℚ))
        ∧ r.bsi = F.fin ((r.bio : ℚ) / (r.observed : ℚ)))
    ∧ (sortByVgs (scoreTable e d b)).length = (scoreTable e d b).length := by
  rcases mem_scoreTable e d b r hr with ⟨k, hk, rfl⟩
  refine ⟨?_, ?_, length_sortBy _ _⟩
  · intro h0
    have h0q : ((gsum e k : ℤ) : ℚ) = 0 := by
      exact_mod_cast h0
    have hmpi : (scoreOne (state_stats (districtAgg e)) (districtAgg d) (districtAgg b)
        (mkD e k)).mpi = F.nan := by
      show safe_div _ ((gsum e k : ℤ) : ℚ) = F.nan
      rw [safe_div, if_pos h0q]
    have hbsi : (scoreOne (state_stats (districtAgg e)) (districtAgg d) (districtAgg b)
        (mkD e k)).bsi = F.nan := by
      show safe_div _ ((gsum e k : ℤ) : ℚ) = F.nan
      rw [safe_div, if_pos h0q]
    refine ⟨hmpi, hbsi, ?_, ?_⟩
    · rw [hmpi]; intro hc; cases hc
    · rw [hmpi]; intro hc; cases hc
  · intro h0
    have h0q : ((gsum e k : ℤ) : ℚ) ≠ 0 := by
      exact_mod_cast h0
    constructor
    · show safe_div _ ((gsum e k : ℤ) : ℚ) = _
      rw [safe_div, if_neg h0q]
      rfl
    · show safe_div _ ((gsum e k : ℤ) : ℚ) = _
      rw [safe_div, if_neg h0q]
      rfl

/-- C4 witness: the sample district with observed 0 and 10 demographic
updates has NaN ratios, and the sample scored table sorts without loss. -/
theorem c4_witness :
    (sampleRow2.observed = 0 →
      sampleRow2.mpi = F.nan ∧ sampleRow2.bsi = F.nan
      ∧ sampleRow2.mpi ≠ F.fin 0 ∧ sampleRow2.mpi ≠ F.inf)
    ∧ (sampleRow2.observed ≠ 0 →
        sampleRow2.mpi = F.fin ((sampleRow2.demo : ℚ) / (sampleRow2.observed : ℚ))
        ∧ sampleRow2.bsi = F.fin ((sampleRow2.bio : ℚ) / (sampleRow2.observed : ℚ)))
    ∧ (sortByVgs (scoreTable sampleE sampleD sampleB)).length
        = (scoreTable sampleE sampleD sampleB).length :=
  c4_undefined_ratios sampleE sampleD sampleB sampleRow2 sampleRow2_mem

/-- C5: recommend evaluates its three predicates in the fixed order VGS
above 0.20, MPI above 0.50, BSI above 0.50, appending one label per
predicate that holds — so the output is the concatenation of the three
optional labels in that order, never reordered or deduplicated — and falls
back to the single monitor label when none holds; the sample row with VGS
0.25, MPI 0.6 and BSI 0.6 yields all three labels in order. -/
theorem c5_recommend_order (r : Scored) :
    recommendList r =
      (if ((if fgt r.vgs (1/5) then ["Mobile enrolment + outreach camps"] else [])
          ++ (if fgt r.mpi (1/2) then ["Assisted demographic update drive (migration/churn)"] else [])
          ++ (if fgt r.bsi (1/2) then ["Biometric recapture support + assisted verification"] else [])) = []
       then ["Monitor (low risk)"]
       else ((if fgt r.vgs (1/5) then ["Mobile enrolment + outreach camps"] else [])
          ++ (if fgt r.mpi (1/2) then ["Assisted demographic update drive (migration/churn)"] else [])
          ++ (if fgt r.bsi (1/2) then ["Biometric recapture support + assisted verification"] else [])))
    ∧ recommendList sampleHot =
        ["Mobile enrolment + outreach camps",
         "Assisted demographic update drive (migration/churn)",
         "Biometric recapture support + assisted verification"]
    ∧ recommend sampleHot = "Mobile enrolment + outreach camps | Assisted demographic update drive (migration/churn) | Biometric recapture support + assisted verification" := by
  have hgen : ∀ rr : Scored, recommendList rr =
      (if ((if fgt rr.vgs (1/5) then ["Mobile enrolment + outreach camps"] else [])
          ++ (if fgt rr.mpi (1/2) then ["Assisted demographic update drive (migration/churn)"] else [])
          ++ (if fgt rr.bsi (1/2) then ["Biometric recapture support + assisted verification"] else [])) = []
       then ["Monitor (low risk)"]
       else ((if fgt rr.vgs (1/5) then ["Mobile enrolment + outreach camps"] else [])
          ++ (if fgt rr.mpi (1/2) then ["Assisted demographic update drive (migration/churn)"] else [])
          ++ (if fgt rr.bsi (1/2) then ["Biometric recapture support + assisted verification"] else []))) := by
    intro rr
    simp only [recommendList]
    cases hv2 : fgt rr.vgs (1/5) <;> cases hm2 : fgt rr.mpi (1/2) <;>
      cases hb2 : fgt rr.bsi (1/2) <;> simp
  have pv : fgt sampleHot.vgs (1/5) = true := by
    show fgt (F.fin (1/4)) (1/5) = true
    simp only [fgt, decide_eq_true_eq]
    norm_num
  have pm : fgt sampleHot.mpi (1/2) = true := by
    show fgt (F.fin (3/5)) (1/2) = true
    simp only [fgt, decide_eq_true_eq]
    norm_num
  have pb : fgt sampleHot.bsi (1/2) = true := by
    show fgt (F.fin (3/5)) (1/2) = true
    simp only [fgt, decide_eq_true_eq]
    norm_num
  have hlist : recommendList sampleHot =
      ["Mobile enrolment + outreach camps",
       "Assisted demographic update drive (migration/churn)",
       "Biometric recapture support + assisted verification"] := by
    rw [hgen sampleHot, pv, pm, pb]
    rfl
  refine ⟨hgen r, hlist, ?_⟩
  rw [recommend, hlist]
  rfl

/-- C6: the script deletes the three table bindings at line 210 and then
reads the enrolment binding at line 221 to compute the peak activity date,
so every run raises a NameError there instead of producing the peak or the
no-data sentinel; the spike computation itself, reached with a table, does
return the no-data sentinel on an empty grouped frame. -/
theorem c6_name_error (g : GlobalsState) :
    spikeStep (delTables g) = SpikeResult.nameError
    ∧ spike_date [] = SpikeResult.noData :=
  ⟨rfl, rfl⟩

/-- C7: the filter engine returns exactly the rows whose month matches the
selection (or all rows under the sentinel) and whose state matches the
selection, as an order-preserving subsequence of the input; with both
sentinels it returns the input unchanged, and the input list itself is
never mutated (the embedding is pure). -/
theorem c7_filter_engine (m s : String) (t : List NRow) :
    apply_filters m s t
      = t.filter (fun r => (m == "All" || r.month == m) && (s == "All" || r.state == s))
    ∧ (apply_filters m s t).Sublist t
    ∧ apply_filters "All" "All" t = t := by
  have h1 : apply_filters m s t
      = t.filter (fun r => (m == "All" || r.month == m) && (s == "All" || r.state == s)) := by
    by_cases hmA : m = "All"
    · by_cases hsA : s = "All"
      · subst hmA
        subst hsA
        simp [apply_filters]
      · subst hmA
        have hsb : (s == "All") = false := beq_eq_false_iff_ne.mpr hsA
        simp [apply_filters, hsA, hsb]
    · by_cases hsA : s = "All"
      · subst hsA
        have hmb : (m == "All") = false := beq_eq_false_iff_ne.mpr hmA
        simp [apply_filters, hmA, hmb]
      · have hsb : (s == "All") = false := beq_eq_false_iff_ne.mpr hsA
        have hmb : (m == "All") = false := beq_eq_false_iff_ne.mpr hmA
        simp only [apply_filters, if_neg hmA, if_neg hsA, hmb, hsb, List.filter_filter,
          Bool.false_or]
        exact List.filter_congr (fun a _ => Bool.and_comm _ _)
  refine ⟨h1, ?_, ?_⟩
  · rw [h1]
    exact List.filter_sublist t
  · simp [apply_filters]

/-- C8: on every scored district, the state total is the sum of observed
enrolments over that state's district aggregates and equally the sum of the
total column over that state's enrolment rows; the district count is the
number of distinct districts of that state in the enrolment table, hence at
least 1; and expected enrolments is exactly their quotient. -/
theorem c8_state_aggregation (e d b : List NRow) (r : Scored) (hr : r ∈ scoreTable e d b) :
    r.stateTotal = (((districtAgg e).filter fun x => x.state == r.state).map
        fun x => x.observed).sum
    ∧ r.stateTotal = ((e.filter fun x => x.state == r.state).map fun x => x.total).sum
    ∧ r.numDistricts = (((e.filter fun x => x.state == r.state).map
        fun x => x.district).dedup).length
    ∧ 1 ≤ r.numDistricts
    ∧ r.expected = F.fin ((r.stateTotal : ℚ) / (r.numDistricts : ℚ)) := by
  rcases mem_scoreTable e d b r hr with ⟨k, hk, rfl⟩
  rw [scoreOne_eq _ _ _ _ _ (stat_find (districtAgg e) k.1 (state_mem_stateKeys e k hk))]
  refine ⟨rfl, stateTotal_raw e k.1, numD_raw e k.1, mkStat_numD_pos e k hk, ?_⟩
  have hnq : ((mkStat (districtAgg e) k.1).numDistricts : ℚ) ≠ 0 :=
    Nat.cast_ne_zero.mpr (by have := mkStat_numD_pos e k hk; omega)
  show fillna0 (fdivQ ((mkStat (districtAgg e) k.1).stateTotal : ℚ)
      ((mkStat (districtAgg e) k.1).numDistricts : ℚ)) = _
  rw [fdivQ, if_neg hnq]
  rfl

/-- C8 witness: in the sample pipeline, state A totals 100 enrolments over
2 distinct districts, and district D carries expected = 100 / 2 = 50. -/
theorem c8_witness :
    sampleRow1.stateTotal = (((districtAgg sampleE).filter
        fun x => x.state == sampleRow1.state).map fun x => x.observed).sum
    ∧ sampleRow1.stateTotal = ((sampleE.filter fun x => x.state == sampleRow1.state).map
        fun x => x.total).sum
    ∧ sampleRow1.numDistricts = (((sampleE.filter fun x => x.state == sampleRow1.state).map
        fun x => x.district).dedup).length
    ∧ 1 ≤ sampleRow1.numDistricts
    ∧ sampleRow1.expected = F.fin ((sampleRow1.stateTotal : ℚ) / (sampleRow1.numDistricts : ℚ)) :=
  c8_state_aggregation sampleE sampleD sampleB sampleRow1 sampleRow1_mem

/-- C10: the scored table's (state, district) keys are exactly the distinct
keys of the filtered enrolment table, in order — a district present only in
the demographic or biometric tables is absent — and each row's demo and bio
sums are the direct group sums over those tables, with 0 when the key is
absent there. -/
theorem c10_join_keys (e d b : List NRow) (r : Scored) (hr : r ∈ scoreTable e d b) :
    (scoreTable e d b).map (fun x => (x.state, x.district))
      = (e.map fun x => (x.state, x.district)).dedup
    ∧ r.demo = ((d.filter fun x => x.state == r.state && x.district == r.district).map
        fun x => x.total).sum
    ∧ r.bio = ((b.filter fun x => x.state == r.state && x.district == r.district).map
        fun x => x.total).sum := by
  rcases mem_scoreTable e d b r hr with ⟨k, hk, rfl⟩
  refine ⟨?_, mergeVal_agg d k.1 k.2, mergeVal_agg b k.1 k.2⟩
  simp only [scoreTable, districtAgg, List.map_map]
  exact map_key_scoreOne _ _ _ e (pairKeys e)

/-- C10 witness: district E appears in the sample enrolment table, its demo
sum 10 comes from the demographic table, and its bio sum is 0 because the
biometric table has no rows for it. -/
theorem c10_witness :
    (scoreTable sampleE sampleD sampleB).map (fun x => (x.state, x.district))
      = (sampleE.map fun x => (x.state, x.district)).dedup
    ∧ sampleRow2.demo = ((sampleD.filter fun x => x.state == sampleRow2.state
        && x.district == sampleRow2.district).map fun x => x.total).sum
    ∧ sampleRow2.bio = ((sampleB.filter fun x => x.state == sampleRow2.state
        && x.district == sampleRow2.district).map fun x => x.total).sum :=
  c10_join_keys sampleE sampleD sampleB sampleRow2 sampleRow2_mem

/-- C2 counterexample: the coercion pipeline parses a well-formed negative
cell as a negative number and keeps it, so a raw row with age_0_5 = -5
normalizes to a negative field and a negative total, refuting the claimed
non-negativity. -/
theorem c2_counterexample :
    (normalizeEnrolRow ⟨none, "A", "D", some (-5), some 0, some 0⟩).total_enrolments = -5
    ∧ (normalizeEnrolRow ⟨none, "A", "D", some (-5), some 0, some 0⟩).total_enrolments < 0
    ∧ (normalizeEnrolRow ⟨none, "A", "D", some (-5), some 0, some 0⟩).age_0_5 < 0 := by
  have h5 : coerceNum (some (-5 : ℚ)) = -5 := by
    rw [coerceNum, ratTrunc, if_neg (by norm_num)]
    rw [show ((-5 : ℚ)) = ((-5 : ℤ) : ℚ) by norm_num, Int.ceil_intCast]
  have h0 : coerceNum (some (0 : ℚ)) = 0 := by
    rw [coerceNum, ratTrunc, if_pos le_rfl]
    rw [show ((0 : ℚ)) = ((0 : ℤ) : ℚ) by norm_num, Int.floor_intCast]
  refine ⟨?_, ?_, ?_⟩
  · show coerceNum (some (-5 : ℚ)) + coerceNum (some (0 : ℚ)) + coerceNum (some (0 : ℚ)) = -5
    rw [h5, h0]
    norm_num
  · show coerceNum (some (-5 : ℚ)) + coerceNum (some (0 : ℚ)) + coerceNum (some (0 : ℚ)) < 0
    rw [h5, h0]
    norm_num
  · show coerceNum (some (-5 : ℚ)) < 0
    rw [h5]
    norm_num

/-- C2 (amended): each normalized field is the coercion of its cell
(malformed or missing parses become 0, parsed numbers are truncated toward
zero to an integer, so every field is a finite integer), the total is the
sum of the three coerced fields, and fields and total are non-negative
whenever every successfully parsed cell value is non-negative — the
coercion itself does not reject well-formed negative inputs. -/
theorem c2_total_amended (r : RawEnrolRow)
    (h1 : cellNonnegB r.age_0_5 = true) (h2 : cellNonnegB r.age_5_17 = true)
    (h3 : cellNonnegB r.age_18_greater = true) :
    (normalizeEnrolRow r).total_enrolments
      = coerceNum r.age_0_5 + coerceNum r.age_5_17 + coerceNum r.age_18_greater
    ∧ (normalizeEnrolRow r).age_0_5 = coerceNum r.age_0_5
    ∧ (normalizeEnrolRow r).age_5_17 = coerceNum r.age_5_17
    ∧ (normalizeEnrolRow r).age_18_greater = coerceNum r.age_18_greater
    ∧ 0 ≤ (normalizeEnrolRow r).age_0_5 ∧ 0 ≤ (normalizeEnrolRow r).age_5_17
    ∧ 0 ≤ (normalizeEnrolRow r).age_18_greater
    ∧ 0 ≤ (normalizeEnrolRow r).total_enrolments := by
  have key : ∀ c : Option ℚ, cellNonnegB c = true → 0 ≤ coerceNum c := by
    intro c hc
    cases c with
    | none => exact le_rfl
    | some q =>
        simp only [cellNonnegB, decide_eq_true_eq] at hc
        simp only [coerceNum, ratTrunc, if_pos hc]
        exact Int.le_floor.mpr (by exact_mod_cast hc)
  exact ⟨rfl, rfl, rfl, rfl, key _ h1, key _ h2, key _ h3,
    add_nonneg (add_nonneg (key _ h1) (key _ h2)) (key _ h3)⟩

/-- C2 witness: a row with cells 3, a malformed cell and 7/2 normalizes to
fields 3, 0, 3 and total 6, all non-negative. -/
theorem c2_witness :
    (normalizeEnrolRow sampleRaw).total_enrolments
      = coerceNum sampleRaw.age_0_5 + coerceNum sampleRaw.age_5_17
        + coerceNum sampleRaw.age_18_greater
    ∧ (normalizeEnrolRow sampleRaw).age_0_5 = coerceNum sampleRaw.age_0_5
    ∧ (normalizeEnrolRow sampleRaw).age_5_17 = coerceNum sampleRaw.age_5_17
    ∧ (normalizeEnrolRow sampleRaw).age_18_greater = coerceNum sampleRaw.age_18_greater
    ∧ 0 ≤ (normalizeEnrolRow sampleRaw).age_0_5 ∧ 0 ≤ (normalizeEnrolRow sampleRaw).age_5_17
    ∧ 0 ≤ (normalizeEnrolRow sampleRaw).age_18_greater
    ∧ 0 ≤ (normalizeEnrolRow sampleRaw).total_enrolments :=
  c2_total_amended sampleRaw (by decide)
    (by decide)
    (by simp only [sampleRaw, cellNonnegB, decide_eq_true_eq]; norm_num)

/-- C9 counterexample: for a null date the derived month cell is the
literal three-character string NaT — a non-null object cell — not a null
value, refuting the claim that the month is null whenever the date is. -/
theorem c9_counterexample :
    monthColCell none = Cell.str "NaT" ∧ monthColCell none ≠ Cell.na := by
  refine ⟨rfl, ?_⟩
  intro hc
  cases hc

/-- C9 (amended): the derived month is the year-month string rendering of
the date — it depends only on the year and month components, so it is the
calendar year-month truncation — and for a null date the stored cell is the
non-null sentinel string NaT produced by astype(str), not a null value. -/
theorem c9_month_amended (r : RawEnrolRow) (d0 : Date) (hd : r.date = some d0) :
    (normalizeEnrolRow r).month = toString d0.year ++ "-" ++ pad2 d0.month
    ∧ (normalizeEnrolRow r).month = periodMStr (some ⟨d0.year, d0.month, 1⟩)
    ∧ monthColCell r.date = Cell.str ((normalizeEnrolRow r).month)
    ∧ monthColCell none = Cell.str "NaT" := by
  have hm : (normalizeEnrolRow r).month = periodMStr r.date := rfl
  rw [hm, hd]
  exact ⟨rfl, rfl, rfl, rfl⟩

/-- C9 witness: the sample raw row dated 15 March 2025 gets month 2025-03,
independent of the day. -/
theorem c9_witness :
    (normalizeEnrolRow sampleRaw).month
      = toString (⟨2025, 3, 15⟩ : Date).year ++ "-" ++ pad2 (⟨2025, 3, 15⟩ : Date).month
    ∧ (normalizeEnrolRow sampleRaw).month
      = periodMStr (some ⟨(⟨2025, 3, 15⟩ : Date).year, (⟨2025, 3, 15⟩ : Date).month, 1⟩)
    ∧ monthColCell sampleRaw.date = Cell.str ((normalizeEnrolRow sampleRaw).month)
    ∧ monthColCell none = Cell.str "NaT" :=
  c9_month_amended sampleRaw ⟨2025, 3, 15⟩ rfl

end IPD
